import Mathlib

/-
Verification of the Finity personal-finance backend (FastAPI/SQLModel).

Shallow embedding conventions, used throughout:
* Python floats that carry money amounts are modelled as exact rationals (ℚ).
  Python's `round(x, n)` (half-even rounding of the decimal value) is modelled
  by exact half-even rounding on ℚ (`roundN`).
* SQL aggregates `SUM(CASE WHEN lower(type) = '...' THEN amount ELSE 0 END)`
  grouped by a key, followed by the dictionary zero-fill in Python, are
  embedded as the per-key filtered sum over the transaction list: a key with
  no matching rows yields the empty sum 0, exactly as the missing-dictionary
  default does.
* `datetime` values are modelled at the granularity each endpoint observes:
  the daily-series endpoint observes only the calendar day of a timestamp
  (its filters span whole days, from `start_of_day` to `end_of_day`), so
  there dates are day numbers in ℤ (Python dates are order-isomorphic to ℤ
  via `toordinal`, `timedelta(days=1)` is `+1`); the list endpoint compares
  raw timestamps, so there a date is an abstract instant in ℤ; the reporting
  month arithmetic works on calendar dates, modelled as (year, month, day)
  triples ordered lexicographically (which is chronological order on valid
  dates).
* `strftime("%Y-%m")`/`strftime("%Y-%m-%d")` grouping keys are injective on
  the dates in scope, so grouping by the formatted string is embedded as
  grouping by the underlying (year, month) pair / day number.
-/

namespace Finity

/-- An HTTP error as raised by `HTTPException(status_code=..., detail=...)`. -/
structure HttpError where
  status : Nat
  detail : String
deriving DecidableEq

/-! ## Rounding (Python `round(x, n)` on exact decimal values) -/

/-- Half-even rounding of a rational to an integer: the idealisation of
Python's `round` (which rounds half to even) applied to an exact value. -/
def roundHalfEven (q : ℚ) : ℤ :=
  if q - ⌊q⌋ < 1/2 then ⌊q⌋
  else if 1/2 < q - ⌊q⌋ then ⌊q⌋ + 1
  else if ⌊q⌋ % 2 = 0 then ⌊q⌋ else ⌊q⌋ + 1

/-- Python `round(q, n)`: half-even rounding at `n` decimal places. -/
def roundN (n : ℕ) (q : ℚ) : ℚ := (roundHalfEven (q * 10 ^ n) : ℚ) / 10 ^ n

/-- Python `round(q, 2)`, the rounding used for all reported amounts. -/
def round2 (q : ℚ) : ℚ := roundN 2 q

theorem roundHalfEven_intCast (n : ℤ) : roundHalfEven (n : ℚ) = n := by
  simp [roundHalfEven]

/-- A rational that is a whole number of cents (an exact two-decimal value),
the faithful image of a monetary amount. -/
def IsCents (q : ℚ) : Prop := ∃ m : ℤ, q * 100 = (m : ℚ)

theorem isCents_zero : IsCents 0 := ⟨0, by norm_num⟩

theorem isCents_add {a b : ℚ} (ha : IsCents a) (hb : IsCents b) :
    IsCents (a + b) := by
  obtain ⟨m, hm⟩ := ha
  obtain ⟨n, hn⟩ := hb
  exact ⟨m + n, by push_cast [← hm, ← hn]; ring⟩

theorem isCents_sub {a b : ℚ} (ha : IsCents a) (hb : IsCents b) :
    IsCents (a - b) := by
  obtain ⟨m, hm⟩ := ha
  obtain ⟨n, hn⟩ := hb
  exact ⟨m - n, by push_cast [← hm, ← hn]; ring⟩

theorem isCents_sum {l : List ℚ} (h : ∀ q ∈ l, IsCents q) : IsCents l.sum := by
  induction l with
  | nil => simpa using isCents_zero
  | cons x xs ih =>
    rw [List.sum_cons]
    exact isCents_add (h x (List.mem_cons_self x xs))
      (ih fun q hq => h q (List.mem_cons_of_mem x hq))

theorem round2_of_isCents {q : ℚ} (h : IsCents q) : round2 q = q := by
  obtain ⟨m, hm⟩ := h
  have hq : q = (m : ℚ) / 100 := by
    field_simp
    linarith [hm]
  subst hq
  have h100 : ((m : ℚ) / 100) * 10 ^ 2 = (m : ℚ) := by ring
  rw [round2, roundN, h100, roundHalfEven_intCast]
  norm_num

theorem round2_zero : round2 0 = 0 := round2_of_isCents isCents_zero

/-! ## Calendar arithmetic (`app/api/v1/reports.py` helpers) -/

/-- A Python `datetime.date`-style calendar date. Validity
(`1 ≤ month ≤ 12`, `1 ≤ day ≤ daysInMonth`) is carried as hypotheses where
a claim needs it, mirroring the invariant `datetime.date` enforces. -/
structure Date where
  year : ℤ
  month : ℤ
  day : ℤ
deriving DecidableEq

/-- The Gregorian leap-year test used inline in `_month_add`:
`y % 4 == 0 and (y % 100 != 0 or y % 400 == 0)`. -/
def isLeap (y : ℤ) : Bool := y % 4 == 0 && (y % 100 != 0 || y % 400 == 0)

/-- The month-length table from `_month_add`:
`[31, 29 if leap else 28, 31, 30, 31, 30, 31, 31, 30, 31, 30, 31]`. -/
def monthLengths (y : ℤ) : List ℤ :=
  [31, if isLeap y then 29 else 28, 31, 30, 31, 30, 31, 31, 30, 31, 30, 31]

/-- The `[m-1]` indexing into the month-length table in `_month_add`. -/
def daysInMonth (y m : ℤ) : ℤ := (monthLengths y).getD (m - 1).toNat 31

/-- The function `_month_add(d, months)`.  Python's `//` and `%` on the
positive divisor 12 agree with Lean's `/` and `%` on ℤ. -/
def month_add (d : Date) (months : ℤ) : Date :=
  let y := d.year + (d.month - 1 + months) / 12
  let m := (d.month - 1 + months) % 12 + 1
  ⟨y, m, min d.day (daysInMonth y m)⟩

/-- Linear month index: `(y, m)` ↦ `12*y + (m-1)`.  Consecutive calendar
months have consecutive indices; the index determines `(year, month)`. -/
def monthIndex (d : Date) : ℤ := 12 * d.year + (d.month - 1)

theorem monthIndex_month_add (d : Date) (k : ℤ) :
    monthIndex (month_add d k) = monthIndex d + k := by
  simp only [month_add, monthIndex]
  omega

theorem month_add_month_bounds (d : Date) (k : ℤ) :
    1 ≤ (month_add d k).month ∧ (month_add d k).month ≤ 12 := by
  simp only [month_add]
  omega

theorem daysInMonth_pos (y : ℤ) {m : ℤ} (h1 : 1 ≤ m) (h2 : m ≤ 12) :
    1 ≤ daysInMonth y m := by
  interval_cases m <;>
    simp [daysInMonth, monthLengths] <;> split <;> norm_num

theorem month_add_day_one (d : Date) (k : ℤ) (h : d.day = 1) :
    (month_add d k).day = 1 := by
  have hb := month_add_month_bounds d k
  have hpos := daysInMonth_pos (month_add d k).year hb.1 hb.2
  simp only [month_add] at hpos ⊢
  omega

/-- `_start_of_month(d)`: `d.replace(day=1)`. -/
def startOfMonth (d : Date) : Date := ⟨d.year, d.month, 1⟩

/-- `_end_of_month(d)`: for December the source returns `date(y, 12, 31)`;
otherwise `date(y, m+1, 1) - timedelta(days=1)`, i.e. the last day of
month `m`, which has `daysInMonth y m` days. -/
def endOfMonth (d : Date) : Date :=
  if d.month == 12 then ⟨d.year, 12, 31⟩
  else ⟨d.year, d.month, daysInMonth d.year d.month⟩

/-- The descending loop inside `_last_n_month_keys`: starting from the first
of the current month, step back one month per iteration. -/
def monthKeysDesc (cur : Date) : ℕ → List Date
  | 0 => []
  | n + 1 => cur :: monthKeysDesc (month_add cur (-1)) n

/-- The dates, in chronological order, whose keys `_last_n_month_keys(n)`
returns (the source formats each as `f"{year:04d}-{month:02d}"` and
reverses). `today` is the value of `_today()`. -/
def lastNMonthDates (today : Date) (n : ℕ) : List Date :=
  (monthKeysDesc (startOfMonth today) n).reverse

/-- Zero-padded decimal rendering, as in `f"{n:04d}"` for nonnegative `n`. -/
def pad (w : ℕ) (n : ℤ) : String :=
  let s := toString n
  String.mk (List.replicate (w - s.length) '0') ++ s

/-- The `f"{cur.year:04d}-{cur.month:02d}"` key format of
`_last_n_month_keys`. -/
def formatYM (d : Date) : String := pad 4 d.year ++ "-" ++ pad 2 d.month

/-- `_last_n_month_keys(n)` itself: ISO `YYYY-MM` keys, chronological. -/
def lastNMonthKeys (today : Date) (n : ℕ) : List String :=
  (lastNMonthDates today n).map formatYM

theorem length_monthKeysDesc (cur : Date) (n : ℕ) :
    (monthKeysDesc cur n).length = n := by
  induction n generalizing cur with
  | zero => rfl
  | succ n ih => simp [monthKeysDesc, ih]

theorem length_lastNMonthDates (today : Date) (n : ℕ) :
    (lastNMonthDates today n).length = n := by
  simp [lastNMonthDates, length_monthKeysDesc]

theorem monthKeysDesc_getElem_monthIndex :
    ∀ (n : ℕ) (cur : Date) (j : ℕ) (hj : j < (monthKeysDesc cur n).length),
      monthIndex ((monthKeysDesc cur n)[j]) = monthIndex cur - j := by
  intro n
  induction n with
  | zero => intro cur j hj; simp [monthKeysDesc] at hj
  | succ n ih =>
    intro cur j hj
    match j with
    | 0 => simp [monthKeysDesc]
    | j + 1 =>
      have hj' : j < (monthKeysDesc (month_add cur (-1)) n).length := by
        simpa [monthKeysDesc] using hj
      have hstep : ((monthKeysDesc cur (n + 1))[j + 1])
          = (monthKeysDesc (month_add cur (-1)) n)[j] := by
        simp [monthKeysDesc]
      rw [hstep, ih _ j hj', monthIndex_month_add]
      push_cast
      ring

theorem monthKeysDesc_mem_day_one :
    ∀ (n : ℕ) (cur : Date), cur.day = 1 →
      ∀ d ∈ monthKeysDesc cur n, d.day = 1 := by
  intro n
  induction n with
  | zero => intro cur _ d hd; cases hd
  | succ n ih =>
    intro cur hcur d hd
    rw [monthKeysDesc, List.mem_cons] at hd
    rcases hd with rfl | hd
    · exact hcur
    · exact ih (month_add cur (-1)) (month_add_day_one cur (-1) hcur) d hd

theorem monthKeysDesc_mem_month_bounds :
    ∀ (n : ℕ) (cur : Date), 1 ≤ cur.month ∧ cur.month ≤ 12 →
      ∀ d ∈ monthKeysDesc cur n, 1 ≤ d.month ∧ d.month ≤ 12 := by
  intro n
  induction n with
  | zero => intro cur _ d hd; cases hd
  | succ n ih =>
    intro cur hcur d hd
    rw [monthKeysDesc, List.mem_cons] at hd
    rcases hd with rfl | hd
    · exact hcur
    · exact ih (month_add cur (-1)) (month_add_month_bounds cur (-1)) d hd

theorem lastNMonthDates_monthIndex (today : Date) (n : ℕ)
    (i : ℕ) (hi : i < (lastNMonthDates today n).length) :
    monthIndex ((lastNMonthDates today n)[i])
      = monthIndex (startOfMonth today) - n + 1 + i := by
  have hi' : i < n := by
    simpa [length_lastNMonthDates] using hi
  have hlen : (monthKeysDesc (startOfMonth today) n).length = n :=
    length_monthKeysDesc _ n
  have hb : n - 1 - i < (monthKeysDesc (startOfMonth today) n).length := by
    omega
  have hrev : (lastNMonthDates today n)[i]
      = (monthKeysDesc (startOfMonth today) n)[n - 1 - i] := by
    simp only [lastNMonthDates]
    rw [List.getElem_reverse]
    congr 1
    omega
  rw [hrev, monthKeysDesc_getElem_monthIndex n (startOfMonth today) (n - 1 - i) (by omega)]
  have : ((n - 1 - i : ℕ) : ℤ) = (n : ℤ) - 1 - i := by omega
  rw [this]
  ring

/-- C6: month-key generation (`_month_add`, `_last_n_month_keys`) rolls over
year boundaries and variable month lengths correctly: for every `n` the last
`n` month keys are `n` distinct consecutive calendar months ending at the
current month in chronological order (entry `i` has linear month index
`monthIndex (current month) - n + 1 + i`, so indices are strictly increasing
by one and end at the current month); every produced date is a valid first
of month.  In particular, with the current date in January 2025 the trailing
keys are `["2024-12", "2025-01"]`, and `_month_add` clamps 31 January to
28 February 2025 and to 29 February 2024 (leap year). -/
theorem c6_month_keys (today : Date)
    (hv : 1 ≤ today.month ∧ today.month ≤ 12) (n : ℕ) :
    (lastNMonthKeys today n).length = n
    ∧ (∀ (i : ℕ) (hi : i < (lastNMonthDates today n).length),
        monthIndex ((lastNMonthDates today n)[i])
          = monthIndex (startOfMonth today) - n + 1 + i)
    ∧ (∀ d ∈ lastNMonthDates today n,
        (1 ≤ d.month ∧ d.month ≤ 12) ∧ d.day = 1)
    ∧ lastNMonthKeys ⟨2025, 1, 15⟩ 2 = ["2024-12", "2025-01"]
    ∧ month_add ⟨2025, 1, 31⟩ 1 = ⟨2025, 2, 28⟩
    ∧ month_add ⟨2024, 1, 31⟩ 1 = ⟨2024, 2, 29⟩ := by
  refine ⟨?_, lastNMonthDates_monthIndex today n, ?_, by decide, by decide, by decide⟩
  · simp [lastNMonthKeys, length_lastNMonthDates]
  · intro d hd
    rw [lastNMonthDates, List.mem_reverse] at hd
    exact ⟨monthKeysDesc_mem_month_bounds n (startOfMonth today) hv d hd,
      monthKeysDesc_mem_day_one n (startOfMonth today) rfl d hd⟩

/-- Witness for C6 at the concrete current date 15 January 2025 with `n = 2`. -/
theorem c6_month_keys_witness :
    (lastNMonthKeys ⟨2025, 1, 15⟩ 2).length = 2
    ∧ (∀ (i : ℕ) (hi : i < (lastNMonthDates ⟨2025, 1, 15⟩ 2).length),
        monthIndex ((lastNMonthDates ⟨2025, 1, 15⟩ 2)[i])
          = monthIndex (startOfMonth ⟨2025, 1, 15⟩) - 2 + 1 + i)
    ∧ (∀ d ∈ lastNMonthDates ⟨2025, 1, 15⟩ 2,
        (1 ≤ d.month ∧ d.month ≤ 12) ∧ d.day = 1)
    ∧ lastNMonthKeys ⟨2025, 1, 15⟩ 2 = ["2024-12", "2025-01"]
    ∧ month_add ⟨2025, 1, 31⟩ 1 = ⟨2025, 2, 28⟩
    ∧ month_add ⟨2024, 1, 31⟩ 1 = ⟨2024, 2, 29⟩ :=
  c6_month_keys ⟨2025, 1, 15⟩ (by decide) 2

/-! ## Daily series (`series_daily` in `app/api/v1/reports.py`) -/

/-- A transaction as the daily-series endpoint observes it.  `day` is the
calendar day of `Transaction.date` as a day number (Python dates are
order-isomorphic to ℤ); the endpoint's SQL filter spans whole days
(`_start_of_day` to `_end_of_day`) and its `strftime("%Y-%m-%d")` grouping
key is exactly that calendar day. -/
structure TxnDaily where
  user_id : ℤ
  type : String
  amount : ℚ
  day : ℤ

/-- SQL `lower()` (ASCII lowercasing, as SQLite implements it), applied
character by character. -/
def lowerStr (s : String) : String := ⟨s.data.map Char.toLower⟩

/-- The `lower(Transaction.type) == "income"` comparison of
`_income_sum_expr`. -/
def isIncomeType (s : String) : Bool := lowerStr s == "income"

/-- The `lower(Transaction.type) == "expense"` comparison of
`_expense_sum_expr`. -/
def isExpenseType (s : String) : Bool := lowerStr s == "expense"

/-- The per-day income aggregate
`SUM(CASE WHEN lower(type) = 'income' THEN amount ELSE 0 END)` grouped by
day, together with the `by_day.get(key, {}).get("income", 0.0)` zero-fill:
a day with no rows yields the empty sum 0. -/
def dayIncome (txns : List TxnDaily) (uid d : ℤ) : ℚ :=
  ((txns.filter fun t => t.user_id == uid && t.day == d).map
    fun t => if isIncomeType t.type then t.amount else 0).sum

/-- Per-day expense aggregate, as `dayIncome`. -/
def dayExpense (txns : List TxnDaily) (uid d : ℤ) : ℚ :=
  ((txns.filter fun t => t.user_id == uid && t.day == d).map
    fun t => if isExpenseType t.type then t.amount else 0).sum

/-- The loop `_date_range(start, end)`: all days from `start` to `end`
inclusive, in order (on day numbers, `cur + timedelta(days=1)` is `+1`). -/
def dateRangeZ (s e : ℤ) : List ℤ :=
  (List.range (e + 1 - s).toNat).map fun (i : ℕ) => s + (i : ℤ)

theorem length_dateRangeZ (s e : ℤ) :
    (dateRangeZ s e).length = (e + 1 - s).toNat := by
  unfold dateRangeZ
  rw [List.length_map, List.length_range]

theorem getElem_dateRangeZ (s e : ℤ) (i : ℕ)
    (hi : i < (dateRangeZ s e).length) :
    (dateRangeZ s e)[i] = s + i := by
  unfold dateRangeZ at hi ⊢
  rw [List.getElem_map, List.getElem_range]

/-- One element of the `series` list built by `series_daily`. -/
structure DayEntry where
  date : ℤ
  income : ℚ
  expense : ℚ
  net : ℚ
deriving DecidableEq

/-- The endpoint `series_daily(days)`: window
`[today - (days-1), today]`, one entry per day with rounded income, expense
and net = income - expense. -/
def series_daily (txns : List TxnDaily) (uid today : ℤ) (days : ℕ) :
    List DayEntry :=
  let start := today - ((days : ℤ) - 1)
  (dateRangeZ start today).map fun d =>
    { date := d
      income := round2 (dayIncome txns uid d)
      expense := round2 (dayExpense txns uid d)
      net := round2 (dayIncome txns uid d - dayExpense txns uid d) }

theorem isCents_dayIncome {txns : List TxnDaily}
    (hc : ∀ t ∈ txns, IsCents t.amount) (uid d : ℤ) :
    IsCents (dayIncome txns uid d) := by
  refine isCents_sum fun q hq => ?_
  rw [List.mem_map] at hq
  obtain ⟨t, ht, rfl⟩ := hq
  have := hc t (List.mem_of_mem_filter ht)
  split <;> [exact this; exact isCents_zero]

theorem isCents_dayExpense {txns : List TxnDaily}
    (hc : ∀ t ∈ txns, IsCents t.amount) (uid d : ℤ) :
    IsCents (dayExpense txns uid d) := by
  refine isCents_sum fun q hq => ?_
  rw [List.mem_map] at hq
  obtain ⟨t, ht, rfl⟩ := hq
  have := hc t (List.mem_of_mem_filter ht)
  split <;> [exact this; exact isCents_zero]

theorem dayIncome_nonneg {txns : List TxnDaily}
    (hnn : ∀ t ∈ txns, 0 ≤ t.amount) (uid d : ℤ) :
    0 ≤ dayIncome txns uid d := by
  refine List.sum_nonneg fun q hq => ?_
  rw [List.mem_map] at hq
  obtain ⟨t, ht, rfl⟩ := hq
  have := hnn t (List.mem_of_mem_filter ht)
  split <;> [exact this; exact le_refl 0]

theorem dayExpense_nonneg {txns : List TxnDaily}
    (hnn : ∀ t ∈ txns, 0 ≤ t.amount) (uid d : ℤ) :
    0 ≤ dayExpense txns uid d := by
  refine List.sum_nonneg fun q hq => ?_
  rw [List.mem_map] at hq
  obtain ⟨t, ht, rfl⟩ := hq
  have := hnn t (List.mem_of_mem_filter ht)
  split <;> [exact this; exact le_refl 0]

theorem dayIncome_eq_zero {txns : List TxnDaily} {uid d : ℤ}
    (h : ∀ t ∈ txns, t.user_id = uid → t.day ≠ d) :
    dayIncome txns uid d = 0 := by
  have hfil : txns.filter (fun t => t.user_id == uid && t.day == d) = [] := by
    rw [List.filter_eq_nil_iff]
    intro t ht
    simp only [Bool.and_eq_true, beq_iff_eq, not_and]
    intro hu
    exact h t ht hu
  simp [dayIncome, hfil]

theorem dayExpense_eq_zero {txns : List TxnDaily} {uid d : ℤ}
    (h : ∀ t ∈ txns, t.user_id = uid → t.day ≠ d) :
    dayExpense txns uid d = 0 := by
  have hfil : txns.filter (fun t => t.user_id == uid && t.day == d) = [] := by
    rw [List.filter_eq_nil_iff]
    intro t ht
    simp only [Bool.and_eq_true, beq_iff_eq, not_and]
    intro hu
    exact h t ht hu
  simp [dayExpense, hfil]

/-- C5 (amended): for `days` in `[1, 180]`, provided every transaction
amount is a nonnegative whole number of cents (the faithful image of a
nonnegative two-decimal monetary float), the daily series has exactly
`days` entries, one per calendar day of `[today - (days-1), today]` in
order; every entry satisfies `net = income - expense` with
`income, expense ≥ 0`; and a day with no matching transactions has
`income = expense = net = 0`. -/
theorem c5_series_daily (txns : List TxnDaily) (uid today : ℤ) (days : ℕ)
    (h1 : 1 ≤ days) (h180 : days ≤ 180)
    (hc : ∀ t ∈ txns, IsCents t.amount)
    (hnn : ∀ t ∈ txns, 0 ≤ t.amount) :
    (series_daily txns uid today days).length = days
    ∧ (∀ (i : ℕ) (hi : i < (series_daily txns uid today days).length),
        ((series_daily txns uid today days)[i]).date = today - days + 1 + i)
    ∧ (∀ en ∈ series_daily txns uid today days,
        en.net = en.income - en.expense ∧ 0 ≤ en.income ∧ 0 ≤ en.expense)
    ∧ (∀ en ∈ series_daily txns uid today days,
        (∀ t ∈ txns, t.user_id = uid → t.day ≠ en.date) →
          en.income = 0 ∧ en.expense = 0 ∧ en.net = 0) := by
  have hlen : (series_daily txns uid today days).length = days := by
    simp only [series_daily]
    rw [List.length_map, length_dateRangeZ]
    omega
  refine ⟨hlen, ?_, ?_, ?_⟩
  · intro i hi
    simp only [series_daily] at hi ⊢
    rw [List.getElem_map, getElem_dateRangeZ]
    ring
  · intro en hen
    simp only [series_daily, List.mem_map] at hen
    obtain ⟨d, _, rfl⟩ := hen
    have hci := isCents_dayIncome hc uid d
    have hce := isCents_dayExpense hc uid d
    refine ⟨?_, ?_, ?_⟩
    · simp only
      rw [round2_of_isCents (isCents_sub hci hce), round2_of_isCents hci,
        round2_of_isCents hce]
    · simp only
      rw [round2_of_isCents hci]
      exact dayIncome_nonneg hnn uid d
    · simp only
      rw [round2_of_isCents hce]
      exact dayExpense_nonneg hnn uid d
  · intro en hen hmiss
    simp only [series_daily, List.mem_map] at hen
    obtain ⟨d, _, rfl⟩ := hen
    simp only at hmiss ⊢
    rw [dayIncome_eq_zero hmiss, dayExpense_eq_zero hmiss]
    refine ⟨round2_zero, round2_zero, by rw [sub_zero, round2_zero]⟩

/-- Witness for C5 at `txns = []`, `uid = 1`, `today = 0`, `days = 2`. -/
theorem c5_series_daily_witness :
    (series_daily [] 1 0 2).length = 2
    ∧ (∀ (i : ℕ) (hi : i < (series_daily [] 1 0 2).length),
        ((series_daily [] 1 0 2)[i]).date = 0 - 2 + 1 + i)
    ∧ (∀ en ∈ series_daily [] 1 0 2,
        en.net = en.income - en.expense ∧ 0 ≤ en.income ∧ 0 ≤ en.expense)
    ∧ (∀ en ∈ series_daily [] 1 0 2,
        (∀ t ∈ ([] : List TxnDaily), t.user_id = 1 → t.day ≠ en.date) →
          en.income = 0 ∧ en.expense = 0 ∧ en.net = 0) := by
  have h := c5_series_daily [] 1 0 2 (by norm_num) (by norm_num)
    (by intro t ht; cases ht) (by intro t ht; cases ht)
  simpa using h

/-- Counterexample to C5 as stated, in two parts.  Amounts are
unconstrained floats, so (1) a negative income amount of -5 makes an
entry's income negative, contradicting `income ≥ 0`; and (2) even with
nonnegative amounts, ones that are not whole cents break
`net = income - expense` for the reported (two-decimal-rounded) entry:
income 0.025 and expense 0.015 on the same day are reported as income
0.02, expense 0.02, net 0.01, and 0.01 ≠ 0.02 - 0.02. -/
theorem c5_counterexample :
    (series_daily [⟨1, "income", -5, 0⟩] 1 0 1
        = [⟨0, -5, 0, -5⟩]
      ∧ ¬(0 ≤ (-5 : ℚ)))
    ∧ (series_daily [⟨1, "income", 1/40, 0⟩, ⟨1, "expense", 3/200, 0⟩] 1 0 1
        = [⟨0, 1/50, 1/50, 1/100⟩]
      ∧ (0 : ℚ) ≤ 1/40 ∧ (0 : ℚ) ≤ 3/200
      ∧ (1/100 : ℚ) ≠ 1/50 - 1/50) := by
  have hr : dateRangeZ (0 - ((1 : ℕ) - 1 : ℤ)) 0 = [0] := by decide
  refine ⟨⟨?_, by norm_num⟩, ?_, by norm_num, by norm_num, by norm_num⟩
  · have hinc : dayIncome [⟨1, "income", -5, 0⟩] 1 0 = -5 := by
      simp +decide [dayIncome, isIncomeType]
    have hexp : dayExpense [⟨1, "income", -5, 0⟩] 1 0 = 0 := by
      simp +decide [dayExpense, isExpenseType]
    have hneg : round2 (-5) = -5 :=
      round2_of_isCents ⟨-500, by norm_num⟩
    simp only [series_daily]
    rw [show ((0 : ℤ) - (((1 : ℕ) : ℤ) - 1)) = 0 - (((1 : ℕ) : ℤ) - 1) from rfl,
      hr, List.map_cons, List.map_nil]
    rw [hinc, hexp]
    norm_num [hneg, round2_zero]
  · have hinc : dayIncome [⟨1, "income", 1/40, 0⟩, ⟨1, "expense", 3/200, 0⟩]
        1 0 = 1/40 := by
      simp +decide [dayIncome, isIncomeType]
    have hexp : dayExpense [⟨1, "income", 1/40, 0⟩, ⟨1, "expense", 3/200, 0⟩]
        1 0 = 3/200 := by
      simp +decide [dayExpense, isExpenseType]
    have h1 : round2 (1/40) = 1/50 := by
      norm_num [round2, roundN, roundHalfEven]
    have h2 : round2 (3/200) = 1/50 := by
      norm_num [round2, roundN, roundHalfEven]
    have h3 : round2 (1/40 - 3/200) = 1/100 := by
      norm_num [round2, roundN, roundHalfEven]
    simp only [series_daily]
    rw [show ((0 : ℤ) - (((1 : ℕ) : ℤ) - 1)) = 0 - (((1 : ℕ) : ℤ) - 1) from rfl,
      hr, List.map_cons, List.map_nil]
    rw [hinc, hexp, h1, h2, h3]

/-! ## Monthly aggregation and forecast
(`forecast_next_month` in `app/api/v1/reports.py`) -/

/-- A transaction as the forecast endpoint observes it: a calendar date
(source of the `strftime("%Y-%m")` grouping key and of the category-window
date filter, which spans whole days). -/
structure TxnM where
  user_id : ℤ
  category_id : Option ℤ
  type : String
  amount : ℚ
  date : Date

/-- Per-month income aggregate of the `rows` query in
`forecast_next_month` (grouped by `strftime("%Y-%m")`, here the linear
month index `k`), together with the `mp.get(k, {}).get("inc", 0.0)`
zero-fill for months with no rows. -/
def monthIncomeM (txns : List TxnM) (uid k : ℤ) : ℚ :=
  ((txns.filter fun t => t.user_id == uid && monthIndex t.date == k).map
    fun t => if isIncomeType t.type then t.amount else 0).sum

/-- Per-month expense aggregate, as `monthIncomeM`. -/
def monthExpenseM (txns : List TxnM) (uid k : ℤ) : ℚ :=
  ((txns.filter fun t => t.user_id == uid && monthIndex t.date == k).map
    fun t => if isExpenseType t.type then t.amount else 0).sum

/-- The `base_months = _last_n_month_keys(lookback_months + 1)[:-1]` value:
the lookback months, excluding the current in-progress month. -/
def baseMonths (today : Date) (lookback : ℕ) : List Date :=
  (lastNMonthDates today (lookback + 1)).dropLast

/-- `inc_vals`: one per-month income total per base month (0 when absent). -/
def incVals (txns : List TxnM) (uid : ℤ) (today : Date) (lookback : ℕ) :
    List ℚ :=
  (baseMonths today lookback).map fun d => monthIncomeM txns uid (monthIndex d)

/-- `exp_vals`, as `incVals`. -/
def expVals (txns : List TxnM) (uid : ℤ) (today : Date) (lookback : ℕ) :
    List ℚ :=
  (baseMonths today lookback).map fun d => monthExpenseM txns uid (monthIndex d)

/-- `inc_forecast = round(sum(inc_vals) / max(1, len(inc_vals)), 2)`. -/
def incForecast (txns : List TxnM) (uid : ℤ) (today : Date) (lookback : ℕ) :
    ℚ :=
  round2 ((incVals txns uid today lookback).sum
    / ((max 1 (incVals txns uid today lookback).length : ℕ) : ℚ))

/-- `exp_forecast = round(sum(exp_vals) / max(1, len(exp_vals)), 2)`. -/
def expForecast (txns : List TxnM) (uid : ℤ) (today : Date) (lookback : ℕ) :
    ℚ :=
  round2 ((expVals txns uid today lookback).sum
    / ((max 1 (expVals txns uid today lookback).length : ℕ) : ℚ))

theorem length_baseMonths (today : Date) (L : ℕ) :
    (baseMonths today L).length = L := by
  simp [baseMonths, List.length_dropLast, length_lastNMonthDates]

theorem baseMonths_getElem_monthIndex (today : Date) (L : ℕ) (i : ℕ)
    (hi : i < (baseMonths today L).length) :
    monthIndex ((baseMonths today L)[i])
      = monthIndex (startOfMonth today) - L + i := by
  have hi' : i < L := by rwa [length_baseMonths] at hi
  have hb1 : i < ((lastNMonthDates today (L + 1)).dropLast).length := by
    simpa [List.length_dropLast, length_lastNMonthDates] using hi'
  have hb2 : i < (lastNMonthDates today (L + 1)).length := by
    simp only [length_lastNMonthDates]
    omega
  have hdrop : ((lastNMonthDates today (L + 1)).dropLast)[i]
      = (lastNMonthDates today (L + 1))[i] :=
    List.getElem_dropLast _ _ _
  simp only [baseMonths]
  rw [hdrop, lastNMonthDates_monthIndex]
  push_cast
  ring

theorem baseMonths_mem (today : Date) (L : ℕ) {d : Date}
    (hd : d ∈ baseMonths today L) : d ∈ lastNMonthDates today (L + 1) :=
  (List.dropLast_sublist _).subset hd

theorem incVals_eq_window (txns : List TxnM) (uid : ℤ) (today : Date)
    (L : ℕ) :
    incVals txns uid today L = (List.range L).map fun (j : ℕ) =>
      monthIncomeM txns uid (monthIndex (startOfMonth today) - L + j) := by
  apply List.ext_getElem
  · simp [incVals, length_baseMonths]
  · intro i h1 h2
    simp only [incVals, List.getElem_map, List.getElem_range]
    rw [baseMonths_getElem_monthIndex]

theorem expVals_eq_window (txns : List TxnM) (uid : ℤ) (today : Date)
    (L : ℕ) :
    expVals txns uid today L = (List.range L).map fun (j : ℕ) =>
      monthExpenseM txns uid (monthIndex (startOfMonth today) - L + j) := by
  apply List.ext_getElem
  · simp [expVals, length_baseMonths]
  · intro i h1 h2
    simp only [expVals, List.getElem_map, List.getElem_range]
    rw [baseMonths_getElem_monthIndex]

/-- C7 (amended): for `lookback_months` in `[2, 12]`, the forecast's income
and expense are the arithmetic mean — rounded to two decimal places by
`round(..., 2)` — of the caller's per-month totals over exactly the
`lookback_months` calendar months with indices
`monthIndex(current) - lookback .. monthIndex(current) - 1`, i.e. the months
immediately preceding and excluding the current in-progress month, with
months having no transactions contributing 0. -/
theorem c7_forecast_mean (txns : List TxnM) (uid : ℤ) (today : Date)
    (L : ℕ) (hL2 : 2 ≤ L) (hL12 : L ≤ 12) :
    (baseMonths today L).length = L
    ∧ (∀ (i : ℕ) (hi : i < (baseMonths today L).length),
        monthIndex ((baseMonths today L)[i])
          = monthIndex (startOfMonth today) - L + i)
    ∧ incForecast txns uid today L
        = round2 ((((List.range L).map fun (j : ℕ) =>
            monthIncomeM txns uid (monthIndex (startOfMonth today) - L + j)).sum)
          / (L : ℚ))
    ∧ expForecast txns uid today L
        = round2 ((((List.range L).map fun (j : ℕ) =>
            monthExpenseM txns uid (monthIndex (startOfMonth today) - L + j)).sum)
          / (L : ℚ)) := by
  have hmax : max 1 L = L := max_eq_right (by omega)
  refine ⟨length_baseMonths today L, baseMonths_getElem_monthIndex today L,
    ?_, ?_⟩
  · rw [incForecast, incVals_eq_window]
    rw [List.length_map, List.length_range, hmax]
  · rw [expForecast, expVals_eq_window]
    rw [List.length_map, List.length_range, hmax]

/-- Witness for C7 at `txns = []`, `uid = 1`, current date 10 March 2025,
`lookback_months = 2`. -/
theorem c7_forecast_mean_witness :
    (baseMonths ⟨2025, 3, 10⟩ 2).length = 2
    ∧ (∀ (i : ℕ) (hi : i < (baseMonths ⟨2025, 3, 10⟩ 2).length),
        monthIndex ((baseMonths ⟨2025, 3, 10⟩ 2)[i])
          = monthIndex (startOfMonth ⟨2025, 3, 10⟩) - 2 + i)
    ∧ incForecast [] 1 ⟨2025, 3, 10⟩ 2
        = round2 ((((List.range 2).map fun (j : ℕ) =>
            monthIncomeM [] 1 (monthIndex (startOfMonth ⟨2025, 3, 10⟩) - 2 + j)).sum)
          / (2 : ℚ))
    ∧ expForecast [] 1 ⟨2025, 3, 10⟩ 2
        = round2 ((((List.range 2).map fun (j : ℕ) =>
            monthExpenseM [] 1 (monthIndex (startOfMonth ⟨2025, 3, 10⟩) - 2 + j)).sum)
          / (2 : ℚ)) :=
  c7_forecast_mean [] 1 ⟨2025, 3, 10⟩ 2 (by norm_num) (by norm_num)

/-- Counterexample to C7 as stated: the forecast is the rounded mean, not
the mean.  One income transaction of 0.03 in February 2025, lookback 2 and
current month March 2025 give the mean (0 + 0.03)/2 = 0.015, but the
endpoint reports round(0.015, 2) = 0.02. -/
theorem c7_counterexample :
    incForecast [⟨1, none, "income", 3/100, ⟨2025, 2, 5⟩⟩] 1 ⟨2025, 3, 1⟩ 2
      = 1/50
    ∧ (monthIncomeM [⟨1, none, "income", 3/100, ⟨2025, 2, 5⟩⟩] 1
          (monthIndex ⟨2025, 1, 1⟩)
        + monthIncomeM [⟨1, none, "income", 3/100, ⟨2025, 2, 5⟩⟩] 1
          (monthIndex ⟨2025, 2, 1⟩)) / 2 = 3/200
    ∧ (1/50 : ℚ) ≠ 3/200 := by
  have hbm : baseMonths ⟨2025, 3, 1⟩ 2 = [⟨2025, 1, 1⟩, ⟨2025, 2, 1⟩] := by
    decide
  have hjan : monthIncomeM [⟨1, none, "income", 3/100, ⟨2025, 2, 5⟩⟩] 1
      (monthIndex ⟨2025, 1, 1⟩) = 0 := by
    simp +decide [monthIncomeM, monthIndex]
  have hfeb : monthIncomeM [⟨1, none, "income", 3/100, ⟨2025, 2, 5⟩⟩] 1
      (monthIndex ⟨2025, 2, 1⟩) = 3/100 := by
    simp +decide [monthIncomeM, monthIndex, isIncomeType]
  refine ⟨?_, ?_, by norm_num⟩
  · rw [incForecast, incVals, hbm]
    simp only [List.map_cons, List.map_nil, List.length_cons, List.length_nil]
    rw [hjan, hfeb]
    norm_num [round2, roundN, roundHalfEven]
  · rw [hjan, hfeb]
    norm_num

/-- Python `date` comparison `a <= b`: lexicographic on
(year, month, day), which is chronological order on valid dates. -/
def dateLe (a b : Date) : Bool :=
  decide (a.year < b.year) || (a.year == b.year &&
    (decide (a.month < b.month) || (a.month == b.month && decide (a.day ≤ b.day))))

/-- The `first_m` value in `forecast_next_month`:
`strptime(base_months[0] + "-01")` when `base_months` is nonempty, else
`_today().replace(day=1)`.  Base-month dates already carry day 1, so the
string round trip is the head itself. -/
def lbFirst (today : Date) (L : ℕ) : Date :=
  (baseMonths today L).headD (startOfMonth today)

/-- The `last_m` value, from `base_months[-1]` (same fallback). -/
def lbLast (today : Date) (L : ℕ) : Date :=
  (baseMonths today L).getLastD (startOfMonth today)

/-- The filter of `cat_stmt`: the caller's transactions with
`lower(type) = 'expense'` and
`_start_of_day(first_m) <= date <= _end_of_day(_end_of_month(last_m))`.
The bounds span whole days, so the comparison is at day granularity. -/
def catWindowFilter (uid : ℤ) (today : Date) (L : ℕ) (t : TxnM) : Bool :=
  t.user_id == uid && isExpenseType t.type
    && dateLe (lbFirst today L) t.date
    && dateLe t.date (endOfMonth (lbLast today L))

/-- The rows of `cat_stmt`: expense totals over the lookback window,
grouped by `category_id` (one row per distinct category value among the
matching transactions). -/
def catRows (txns : List TxnM) (uid : ℤ) (today : Date) (L : ℕ) :
    List (ℚ × Option ℤ) :=
  let matching := txns.filter (catWindowFilter uid today L)
  ((matching.map fun t => t.category_id).dedup).map fun c =>
    (((matching.filter fun t => t.category_id == c).map fun t => t.amount).sum, c)

/-- The guard `total_lb = float(sum(r[0] or 0.0 for r in rows)) or 1.0`:
a zero total (in particular, an empty lookback window) defaults to 1. -/
def totalLb (txns : List TxnM) (uid : ℤ) (today : Date) (L : ℕ) : ℚ :=
  let s := ((catRows txns uid today L).map fun r => r.fst).sum
  if s = 0 then 1 else s

/-- One entry of the forecast's `by_category` list.  The display-name
lookup (`category_name`) is omitted: it only affects the label, never the
numbers. -/
structure CatShare where
  category_id : Option ℤ
  share : ℚ
  projected_amount : ℚ
deriving DecidableEq

/-- The `by_category` list of `forecast_next_month`:
`share = total / total_lb`, reported as `round(share, 4)`, and
`projected_amount = round(exp_forecast * share, 2)`. -/
def byCategory (txns : List TxnM) (uid : ℤ) (today : Date) (L : ℕ) :
    List CatShare :=
  (catRows txns uid today L).map fun r =>
    ⟨r.snd, roundN 4 (r.fst / totalLb txns uid today L),
      round2 (expForecast txns uid today L * (r.fst / totalLb txns uid today L))⟩

theorem dateLe_first_iff (f d : Date) (hf : f.day = 1)
    (hfm : 1 ≤ f.month ∧ f.month ≤ 12)
    (hdm : 1 ≤ d.month ∧ d.month ≤ 12) (hd1 : 1 ≤ d.day) :
    dateLe f d = true ↔ monthIndex f ≤ monthIndex d := by
  obtain ⟨fy, fm, fdy⟩ := f
  obtain ⟨y, m, dd⟩ := d
  simp only [dateLe, monthIndex, Bool.or_eq_true, Bool.and_eq_true,
    beq_iff_eq, decide_eq_true_eq] at *
  omega

theorem dateLe_endOfMonth_iff (d l : Date)
    (hdm : 1 ≤ d.month ∧ d.month ≤ 12)
    (hdd : d.day ≤ daysInMonth d.year d.month)
    (hlm : 1 ≤ l.month ∧ l.month ≤ 12) :
    dateLe d (endOfMonth l) = true ↔ monthIndex d ≤ monthIndex l := by
  have hEnd : endOfMonth l = ⟨l.year, l.month, daysInMonth l.year l.month⟩ := by
    unfold endOfMonth
    split
    · next h =>
      have h12 : l.month = 12 := by simpa using h
      rw [h12]
      rfl
    · rfl
  rw [hEnd]
  obtain ⟨y, m, dd⟩ := d
  obtain ⟨ly, lm, ld⟩ := l
  simp only [dateLe, monthIndex, Bool.or_eq_true, Bool.and_eq_true,
    beq_iff_eq, decide_eq_true_eq] at *
  by_cases hy : y = ly
  · subst hy
    by_cases hm : m = lm
    · subst hm
      omega
    · omega
  · omega

theorem monthExpenseM_eq_zero {txns : List TxnM} {uid k : ℤ}
    (h : ∀ t ∈ txns, t.user_id = uid → monthIndex t.date ≠ k) :
    monthExpenseM txns uid k = 0 := by
  have hfil : txns.filter (fun t => t.user_id == uid && monthIndex t.date == k)
      = [] := by
    rw [List.filter_eq_nil_iff]
    intro t ht
    simp only [Bool.and_eq_true, beq_iff_eq, not_and]
    intro hu
    exact h t ht hu
  simp [monthExpenseM, hfil]

theorem baseMonths_mem_valid (today : Date)
    (hv : 1 ≤ today.month ∧ today.month ≤ 12) (L : ℕ) :
    ∀ d ∈ baseMonths today L, (1 ≤ d.month ∧ d.month ≤ 12) ∧ d.day = 1 := by
  intro d hd
  have h1 := baseMonths_mem today L hd
  rw [lastNMonthDates, List.mem_reverse] at h1
  exact ⟨monthKeysDesc_mem_month_bounds (L + 1) (startOfMonth today) hv d h1,
    monthKeysDesc_mem_day_one (L + 1) (startOfMonth today) rfl d h1⟩

theorem headD_eq_getElem {α : Type} (l : List α) (d : α)
    (h : 0 < l.length) : l.headD d = l[0] := by
  cases l with
  | nil => simp at h
  | cons a as => rfl

theorem getLastD_eq_getElem {α : Type} (l : List α) (d : α)
    (h : 0 < l.length) : l.getLastD d = l[l.length - 1] := by
  cases l with
  | nil => simp at h
  | cons a as =>
    rw [List.getLastD_eq_getLast?, List.getLast?_eq_getLast _ (by simp),
      Option.getD_some, List.getLast_eq_getElem]

theorem lbFirst_mem (today : Date) (L : ℕ) (hL : 1 ≤ L) :
    lbFirst today L ∈ baseMonths today L := by
  have hlen := length_baseMonths today L
  rw [lbFirst, headD_eq_getElem _ _ (by omega)]
  exact List.getElem_mem _

theorem lbFirst_monthIndex (today : Date) (L : ℕ) (hL : 1 ≤ L) :
    monthIndex (lbFirst today L) = monthIndex (startOfMonth today) - L := by
  have hlen := length_baseMonths today L
  have hidx := baseMonths_getElem_monthIndex today L 0 (by omega)
  rw [lbFirst, headD_eq_getElem _ _ (by omega), hidx]
  norm_num

theorem lbLast_mem (today : Date) (L : ℕ) (hL : 1 ≤ L) :
    lbLast today L ∈ baseMonths today L := by
  have hlen := length_baseMonths today L
  rw [lbLast, getLastD_eq_getElem _ _ (by omega)]
  exact List.getElem_mem _

theorem lbLast_monthIndex (today : Date) (L : ℕ) (hL : 1 ≤ L) :
    monthIndex (lbLast today L) = monthIndex (startOfMonth today) - 1 := by
  have hlen := length_baseMonths today L
  have hidx := baseMonths_getElem_monthIndex today L (L - 1) (by omega)
  rw [lbLast, getLastD_eq_getElem _ _ (by omega)]
  simp only [hlen]
  rw [hidx]
  have : ((L - 1 : ℕ) : ℤ) = (L : ℤ) - 1 := by omega
  rw [this]
  ring

/-- C8: with no transactions of the caller in the lookback window, the
forecast does not fault: the category-share divisor `total_lb` defaults
to 1, `forecast.expense` is 0, the category list is empty (so every share
is zero), and for every input whatsoever the divisor is nonzero, so the
share division can never be a division by zero. -/
theorem c8_forecast_empty_window (txns : List TxnM) (uid : ℤ) (today : Date)
    (L : ℕ) (hv : 1 ≤ today.month ∧ today.month ≤ 12)
    (hL2 : 2 ≤ L) (hL12 : L ≤ 12)
    (hvalid : ∀ t ∈ txns, (1 ≤ t.date.month ∧ t.date.month ≤ 12)
      ∧ 1 ≤ t.date.day ∧ t.date.day ≤ daysInMonth t.date.year t.date.month)
    (hwin : ∀ t ∈ txns, t.user_id = uid →
      monthIndex t.date < monthIndex (startOfMonth today) - L
      ∨ monthIndex (startOfMonth today) ≤ monthIndex t.date) :
    expForecast txns uid today L = 0
    ∧ totalLb txns uid today L = 1
    ∧ byCategory txns uid today L = []
    ∧ ∀ (txns2 : List TxnM) (uid2 : ℤ) (today2 : Date) (L2 : ℕ),
        totalLb txns2 uid2 today2 L2 ≠ 0 := by
  have hexp : expForecast txns uid today L = 0 := by
    rw [expForecast, expVals_eq_window]
    have hall : ∀ x ∈ (List.range L).map (fun (j : ℕ) =>
        monthExpenseM txns uid (monthIndex (startOfMonth today) - L + j)),
        x = 0 := by
      intro x hx
      rw [List.mem_map] at hx
      obtain ⟨j, hj, rfl⟩ := hx
      rw [List.mem_range] at hj
      apply monthExpenseM_eq_zero
      intro t ht hu heq
      rcases hwin t ht hu with hlt | hge
      · omega
      · omega
    rw [List.sum_eq_zero hall, zero_div, round2_zero]
  have hmatch : txns.filter (catWindowFilter uid today L) = [] := by
    rw [List.filter_eq_nil_iff]
    intro t ht hcf
    simp only [catWindowFilter, Bool.and_eq_true, beq_iff_eq] at hcf
    obtain ⟨⟨⟨hu, _⟩, hlow⟩, hupp⟩ := hcf
    have hfv := baseMonths_mem_valid today hv L _ (lbFirst_mem today L (by omega))
    have hlv := baseMonths_mem_valid today hv L _ (lbLast_mem today L (by omega))
    have htv := hvalid t ht
    have h1 : monthIndex (lbFirst today L) ≤ monthIndex t.date :=
      (dateLe_first_iff (lbFirst today L) t.date hfv.2 hfv.1 htv.1 htv.2.1).mp hlow
    have h2 : monthIndex t.date ≤ monthIndex (lbLast today L) :=
      (dateLe_endOfMonth_iff t.date (lbLast today L) htv.1 htv.2.2 hlv.1).mp hupp
    rw [lbFirst_monthIndex today L (by omega)] at h1
    rw [lbLast_monthIndex today L (by omega)] at h2
    rcases hwin t ht hu with hlt | hge
    · omega
    · omega
  have hrows : catRows txns uid today L = [] := by
    simp [catRows, hmatch]
  have htlb : totalLb txns uid today L = 1 := by
    simp [totalLb, hrows]
  have hbc : byCategory txns uid today L = [] := by
    simp [byCategory, hrows]
  refine ⟨hexp, htlb, hbc, ?_⟩
  intro txns2 uid2 today2 L2
  simp only [totalLb]
  split
  · norm_num
  · next h => exact h

/-- Witness for C8 at `txns = []`, `uid = 1`, current date 10 March 2025,
`lookback_months = 2`. -/
theorem c8_forecast_empty_window_witness :
    expForecast [] 1 ⟨2025, 3, 10⟩ 2 = 0
    ∧ totalLb [] 1 ⟨2025, 3, 10⟩ 2 = 1
    ∧ byCategory [] 1 ⟨2025, 3, 10⟩ 2 = []
    ∧ ∀ (txns2 : List TxnM) (uid2 : ℤ) (today2 : Date) (L2 : ℕ),
        totalLb txns2 uid2 today2 L2 ≠ 0 :=
  c8_forecast_empty_window [] 1 ⟨2025, 3, 10⟩ 2 (by norm_num)
    (by norm_num) (by norm_num)
    (by intro t ht; cases ht) (by intro t ht; cases ht)

/-! ## Credential and token service
(`app/core/security.py`, `app/api/v1/auth.py`) -/

/-- Modelled from the spec: a stand-in digest for passlib bcrypt (an
external library); only its dependence on both salt and password is
modelled, not the cryptography. -/
def bcryptDigest (salt pw : String) : String :=
  toString ((salt ++ pw).foldl (fun h c => (h * 31 + c.toNat) % 1000000007) 5381)

/-- A salted password hash as produced by `pwd_context.hash`: passlib
bcrypt draws a fresh salt and embeds it alongside the digest. -/
structure HashedPassword where
  salt : String
  digest : String
deriving DecidableEq

/-- Modelled from the spec: `hash_password(password)` stores a salted
bcrypt hash; the salt passlib draws internally is passed explicitly. -/
def hash_password (salt password : String) : HashedPassword :=
  ⟨salt, bcryptDigest salt password⟩

/-- Modelled from the spec: `app/models/user.py` is absent from the source
tree (only its importers are present); the fields follow the spec's data
model: id, email (unique), password hash, full name. -/
structure User where
  id : ℤ
  email : String
  password_hash : HashedPassword
  full_name : Option String
deriving DecidableEq

/-- A decoded bearer token: the `{"sub": claim, "exp": expiry}` payload of
`create_access_token`; the JWT signature is the external `jose` library. -/
structure Token where
  sub : String
  exp : ℤ
deriving DecidableEq

/-- `ACCESS_TOKEN_EXPIRE_MINUTES = 90`. -/
def accessTokenExpireMinutes : ℤ := 90

/-- `create_access_token(data={"sub": claim})` with the default expiry. -/
def create_access_token (claim : String) (now : ℤ) : Token :=
  ⟨claim, now + accessTokenExpireMinutes * 60⟩

/-- The request body of `POST /api/v1/auth/register`. -/
structure RegisterReq where
  email : String
  password : String
  full_name : Option String

/-- The `register` endpoint: duplicate-email check
(`db.query(UserModel).filter(email == ...).first()`) raising 400 before
any insert, else hash, insert, and issue a token bound to the new user's
email.  Returns the response together with the resulting user table
(unchanged when the call fails). -/
def register (users : List User) (req : RegisterReq) (salt : String)
    (newId now : ℤ) : Except HttpError Token × List User :=
  match users.find? (fun u => u.email == req.email) with
  | some _ => (.error ⟨400, "Email already registered"⟩, users)
  | none =>
    (.ok (create_access_token req.email now),
      users ++ [⟨newId, req.email, hash_password salt req.password,
        req.full_name⟩])

/-- C4 (amended): `register` fails with 400 Bad Request — not 409
Conflict — when a user with the email exists, leaving the user table
unchanged; on success it appends exactly one user whose stored
`password_hash` is the salted hash of the supplied password, and returns a
bearer token whose claim (`sub`) is the new user's email. -/
theorem c4_register (users : List User) (req : RegisterReq) (salt : String)
    (newId now : ℤ) :
    ((∃ u ∈ users, u.email = req.email) →
      register users req salt newId now
        = (.error ⟨400, "Email already registered"⟩, users))
    ∧ ((∀ u ∈ users, u.email ≠ req.email) →
      register users req salt newId now
        = (.ok (create_access_token req.email now),
            users ++ [⟨newId, req.email, hash_password salt req.password,
              req.full_name⟩])
      ∧ (create_access_token req.email now).sub = req.email
      ∧ (hash_password salt req.password).salt = salt) := by
  constructor
  · rintro ⟨u, hu, he⟩
    have hne : users.find? (fun u => u.email == req.email) ≠ none := by
      rw [Ne, List.find?_eq_none]
      push_neg
      exact ⟨u, hu, by simp [he]⟩
    rcases hfind : users.find? (fun u => u.email == req.email) with _ | v
    · exact absurd hfind hne
    · simp only [register, hfind]
  · intro h
    have hnone : users.find? (fun u => u.email == req.email) = none := by
      rw [List.find?_eq_none]
      intro u hu
      simp [h u hu]
    simp only [register, hnone]
    exact ⟨trivial, rfl, rfl⟩

/-- Witness for C4: both branches at concrete inputs — a duplicate
registration against a table holding the email, and a fresh registration
against an empty table. -/
theorem c4_register_witness :
    register [⟨1, "a@b.c", hash_password "s1" "pw1", none⟩]
        ⟨"a@b.c", "pw2", none⟩ "s2" 2 0
      = (.error ⟨400, "Email already registered"⟩,
          [⟨1, "a@b.c", hash_password "s1" "pw1", none⟩])
    ∧ (register [] ⟨"a@b.c", "pw2", none⟩ "s2" 2 0
        = (.ok (create_access_token "a@b.c" 0),
            [] ++ [⟨2, "a@b.c", hash_password "s2" "pw2", none⟩])
      ∧ (create_access_token "a@b.c" 0).sub = "a@b.c"
      ∧ (hash_password "s2" "pw2").salt = "s2") :=
  ⟨(c4_register [⟨1, "a@b.c", hash_password "s1" "pw1", none⟩]
      ⟨"a@b.c", "pw2", none⟩ "s2" 2 0).1
      ⟨_, List.mem_cons_self _ _, rfl⟩,
    (c4_register [] ⟨"a@b.c", "pw2", none⟩ "s2" 2 0).2
      (by intro u hu; cases hu)⟩

/-- Counterexample to C4 as stated: the duplicate-email failure carries
status 400 (Bad Request), not 409 (Conflict). -/
theorem c4_register_counterexample :
    (register [⟨1, "a@b.c", hash_password "s1" "pw1", none⟩]
        ⟨"a@b.c", "pw2", none⟩ "s2" 2 0).1
      = .error ⟨400, "Email already registered"⟩
    ∧ (400 : ℕ) ≠ 409 := by
  exact ⟨rfl, by norm_num⟩

/-! ## Categories (`app/api/v1/categories.py`) -/

/-- The `Category` SQLModel row (`datetime` as an abstract instant). -/
structure Category where
  id : Option ℤ
  user_id : Option ℤ
  name : String
  type : String
  created_at : ℤ
deriving DecidableEq

/-- A category request body as `body.dict(exclude_unset=True)` yields it
(a field is `none` when absent). -/
structure CategoryPayload where
  id : Option ℤ
  user_id : Option ℤ
  name : Option String
  type : Option String
  created_at : Option ℤ

/-- The user lookup inside `create_category`:
`select(User).where(User.email == current_user)`, where `current_user` is
the NUMERIC id that `get_current_user` returns.  SQLAlchemy binds the
integer against the TEXT `email` column; under SQLite affinity rules the
integer operand is compared as its decimal text (under PostgreSQL the
query would fail outright), so it matches only a user whose email is
literally the digits of the caller's id. -/
def findUserByEmailNum (users : List User) (n : ℤ) : Option User :=
  users.find? (fun u => u.email == toString n)

/-- `create_category`: strips `id`/`user_id`/`created_at` from the body,
resolves the owner through the email-vs-id lookup above (404 when it
misses), stamps `created_at` and ownership server-side; the database
assigns `newId`.  An absent body field falls back to the model default
(`type` defaults to "general"; a missing `name` is out of the valid-body
envelope and modelled as ""). -/
def create_category (users : List User) (current_user : ℤ)
    (body : CategoryPayload) (now newId : ℤ) : Except HttpError Category :=
  match findUserByEmailNum users current_user with
  | none => .error ⟨404, "User not found"⟩
  | some u => .ok ⟨some newId, some u.id, body.name.getD "",
      body.type.getD "general", now⟩

/-- C1 evaluation at the failing input: a single registered user with
id 1 and email "alice@example.com" calls `create_category` with their own
authenticated id and a valid body, and the endpoint raises
404 "User not found" instead of creating the category — the owner lookup
compares the numeric caller id against the email column. -/
theorem c1_create_category_bug :
    create_category [⟨1, "alice@example.com", hash_password "s" "pw", none⟩]
        1 ⟨none, none, some "Food", some "general", none⟩ 100 7
      = .error ⟨404, "User not found"⟩ := rfl

/-- The owner-scoped category lookup
`select(Category).where(id == category_id, user_id == current_user)`. -/
def findCat (cats : List Category) (cid uid : ℤ) : Option Category :=
  cats.find? (fun c => c.id == some cid && c.user_id == some uid)

/-- `_apply_updates_safe` for categories: drops `id`, `user_id`,
`created_at` from the payload, then assigns the remaining present fields
that exist on the model.  (The `*_at`-string parsing branch only concerns
`created_at`, which is always dropped first.) -/
def applyUpdatesSafeCat (r : Category) (p : CategoryPayload) : Category :=
  { r with
    name := p.name.getD r.name
    type := p.type.getD r.type }

/-- `get_category`: owner-scoped fetch, 404 on a miss. -/
def get_category (cats : List Category) (cid uid : ℤ) :
    Except HttpError Category :=
  match findCat cats cid uid with
  | none => .error ⟨404, "Category not found"⟩
  | some r => .ok r

/-- `update_category`: owner-scoped fetch (404 on a miss), safe update,
ownership reassertion (`existing.user_id = current_user`); `Category` has
no `updated_at` attribute, so that stamp is skipped. -/
def update_category (cats : List Category) (cid uid : ℤ)
    (p : CategoryPayload) : Except HttpError Category :=
  match findCat cats cid uid with
  | none => .error ⟨404, "Category not found"⟩
  | some r => .ok { applyUpdatesSafeCat r p with user_id := some uid }

/-- `delete_category`: owner-scoped fetch then delete; returns the
response and the resulting table (unchanged on failure). -/
def delete_category (cats : List Category) (cid uid : ℤ) :
    Except HttpError String × List Category :=
  match findCat cats cid uid with
  | none => (.error ⟨404, "Category not found"⟩, cats)
  | some r => (.ok "Category deleted successfully", cats.erase r)

/-! ## Transactions (`app/api/v1/transactions.py`) -/

/-- The `Transaction` SQLModel row (`datetime` columns as abstract
instants in ℤ, amounts as exact rationals). -/
structure Txn where
  id : Option ℤ
  user_id : ℤ
  category_id : Option ℤ
  receipt_id : Option ℤ
  type : String
  amount : ℚ
  currency : String
  date : ℤ
  notes : Option String
  created_at : ℤ
  updated_at : ℤ
  merchant : String
deriving DecidableEq

/-- A transaction request body as `body.dict(exclude_unset=True)` yields
it: a field is `none` when absent.  The ISO-string-to-datetime coercion
(`_coerce_datetime_fields`) happens upstream of this representation. -/
structure TxnPayload where
  id : Option ℤ
  user_id : Option ℤ
  category_id : Option ℤ
  receipt_id : Option ℤ
  type : Option String
  amount : Option ℚ
  currency : Option String
  date : Option ℤ
  notes : Option String
  created_at : Option ℤ
  updated_at : Option ℤ
  merchant : Option String

/-- `_apply_updates_safe`: pops `id`, `user_id`, `created_at`
(`FORBIDDEN_MUTATION_FIELDS`) from the payload, then assigns every
remaining present field onto the row. -/
def _apply_updates_safe (r : Txn) (p : TxnPayload) : Txn :=
  { r with
    category_id := (p.category_id.map some).getD r.category_id
    receipt_id := (p.receipt_id.map some).getD r.receipt_id
    type := p.type.getD r.type
    amount := p.amount.getD r.amount
    currency := p.currency.getD r.currency
    date := p.date.getD r.date
    notes := (p.notes.map some).getD r.notes
    updated_at := p.updated_at.getD r.updated_at
    merchant := p.merchant.getD r.merchant }

/-- The owner-scoped transaction lookup
`select(Transaction).where(id == transaction_id, user_id == current_user)`. -/
def findTxn (db : List Txn) (tid uid : ℤ) : Option Txn :=
  db.find? (fun r => r.id == some tid && r.user_id == uid)

/-- `get_transaction`: owner-scoped fetch, 404 on a miss. -/
def get_transaction (db : List Txn) (tid uid : ℤ) : Except HttpError Txn :=
  match findTxn db tid uid with
  | none => .error ⟨404, "Transaction not found"⟩
  | some r => .ok r

/-- `update_transaction`: the body validations
(`if not incoming.get("category_id")`, `if not incoming.get("merchant")`;
Python falsiness: absent, 0 and "" all fail) raise 400 BEFORE the
owner-scoped fetch raises 404; on success applies `_apply_updates_safe`,
reasserts ownership and stamps `updated_at` server-side. -/
def update_transaction (db : List Txn) (tid uid : ℤ) (p : TxnPayload)
    (now : ℤ) : Except HttpError Txn :=
  if p.category_id.getD 0 == 0 then .error ⟨400, "Category ID is required."⟩
  else if p.merchant.getD "" == "" then .error ⟨400, "Merchant is required."⟩
  else match findTxn db tid uid with
    | none => .error ⟨404, "Transaction not found"⟩
    | some r => .ok { _apply_updates_safe r p with user_id := uid, updated_at := now }

/-- `delete_transaction`: owner-scoped fetch then delete; returns the
response and the resulting table (unchanged on failure). -/
def delete_transaction (db : List Txn) (tid uid : ℤ) :
    Except HttpError String × List Txn :=
  match findTxn db tid uid with
  | none => (.error ⟨404, "Transaction not found"⟩, db)
  | some r => (.ok "Transaction deleted successfully", db.erase r)

/-- `create_transaction`: validates the presence of a truthy
`category_id` and `merchant`, checks that the referenced category exists
(any owner's), strips the forbidden fields, constructs the row and stamps
ownership and timestamps server-side; the database assigns `newId`.
Absent optional body fields fall back to the model defaults. -/
def create_transaction (cats : List Category) (uid : ℤ) (p : TxnPayload)
    (now newId : ℤ) : Except HttpError Txn :=
  if p.category_id.getD 0 == 0 then .error ⟨400, "Category ID is required."⟩
  else if p.merchant.getD "" == "" then .error ⟨400, "Merchant is required."⟩
  else match cats.find? (fun c => c.id == p.category_id) with
    | none => .error ⟨400, "Invalid category ID."⟩
    | some _ =>
      .ok { id := some newId
            user_id := uid
            category_id := p.category_id
            receipt_id := p.receipt_id
            type := p.type.getD ""
            amount := p.amount.getD 0
            currency := p.currency.getD "INR"
            date := p.date.getD now
            notes := p.notes
            created_at := now
            updated_at := now
            merchant := p.merchant.getD "" }

/-- Every successfully created transaction carries the authenticated
caller's numeric id as `user_id` (`obj.user_id = current_user`), whatever
the body supplied — the half of the create-ownership property that the
code does satisfy. -/
theorem create_transaction_sets_owner (cats : List Category) (uid : ℤ)
    (p : TxnPayload) (now newId : ℤ) (t : Txn)
    (h : create_transaction cats uid p now newId = .ok t) :
    t.user_id = uid := by
  rw [create_transaction] at h
  split at h
  · cases h
  · split at h
    · cases h
    · rcases hfind : cats.find? (fun c => c.id == p.category_id) with _ | c
      all_goals rw [hfind] at h
      · cases h
      · cases h
        rfl

/-- Witness for the create-ownership support theorem at a concrete input. -/
theorem create_transaction_sets_owner_witness :
    ({ id := some 9
       user_id := 1
       category_id := some 2
       receipt_id := none
       type := "expense"
       amount := 5
       currency := "INR"
       date := 50
       notes := none
       created_at := 50
       updated_at := 50
       merchant := "Shop" } : Txn).user_id = 1 :=
  create_transaction_sets_owner [⟨some 2, some 1, "Food", "general", 0⟩] 1
    ⟨none, some 99, some 2, none, some "expense", some 5, none, none, none,
      none, none, some "Shop"⟩ 50 9 _ rfl

/-- C2: every successful PUT leaves `id`, `user_id` and `created_at` of
the target row at their pre-update values, for every request body
including bodies that set those fields: `_apply_updates_safe` drops them,
and the ownership reassertion rewrites `user_id` with the very value the
owner-scoped fetch matched on. -/
theorem c2_update_immutable_fields (db : List Txn) (cats : List Category)
    (tid cid uid : ℤ) (pT : TxnPayload) (pC : CategoryPayload) (now : ℤ) :
    (∀ t, update_transaction db tid uid pT now = .ok t →
      ∃ r, findTxn db tid uid = some r
        ∧ t.id = r.id ∧ t.user_id = r.user_id ∧ t.created_at = r.created_at)
    ∧ (∀ c, update_category cats cid uid pC = .ok c →
      ∃ r, findCat cats cid uid = some r
        ∧ c.id = r.id ∧ c.user_id = r.user_id ∧ c.created_at = r.created_at) := by
  constructor
  · intro t ht
    rw [update_transaction] at ht
    split at ht
    · cases ht
    · split at ht
      · cases ht
      · rcases hfind : findTxn db tid uid with _ | r
        all_goals rw [hfind] at ht
        · cases ht
        · cases ht
          have hfind2 : db.find?
              (fun x => x.id == some tid && x.user_id == uid) = some r := hfind
          have hp := List.find?_some hfind2
          simp only [Bool.and_eq_true, beq_iff_eq] at hp
          exact ⟨r, rfl, rfl, hp.2.symm, rfl⟩
  · intro c hc
    rw [update_category] at hc
    rcases hfind : findCat cats cid uid with _ | r
    all_goals rw [hfind] at hc
    · cases hc
    · cases hc
      have hfind2 : cats.find?
          (fun x => x.id == some cid && x.user_id == some uid) = some r := hfind
      have hp := List.find?_some hfind2
      simp only [Bool.and_eq_true, beq_iff_eq] at hp
      exact ⟨r, rfl, rfl, hp.2.symm, rfl⟩

/-- Witness for C2: a concrete transaction and category update whose
bodies attempt to overwrite `id`, `user_id` and `created_at`, applied
through the theorem. -/
theorem c2_update_immutable_fields_witness :
    (∃ r, findTxn [⟨some 1, 1, some 2, none, "expense", 5, "INR", 0, none,
          10, 10, "Shop"⟩] 1 1 = some r
      ∧ ({ id := some 1, user_id := 1, category_id := some 2,
            receipt_id := none, type := "expense", amount := 5,
            currency := "INR", date := 0, notes := none, created_at := 10,
            updated_at := 20, merchant := "Mart" } : Txn).id = r.id
      ∧ ({ id := some 1, user_id := 1, category_id := some 2,
            receipt_id := none, type := "expense", amount := 5,
            currency := "INR", date := 0, notes := none, created_at := 10,
            updated_at := 20, merchant := "Mart" } : Txn).user_id = r.user_id
      ∧ ({ id := some 1, user_id := 1, category_id := some 2,
            receipt_id := none, type := "expense", amount := 5,
            currency := "INR", date := 0, notes := none, created_at := 10,
            updated_at := 20, merchant := "Mart" } : Txn).created_at
          = r.created_at)
    ∧ (∃ r, findCat [⟨some 3, some 1, "Food", "general", 7⟩] 3 1 = some r
      ∧ (⟨some 3, some 1, "Groceries", "general", 7⟩ : Category).id = r.id
      ∧ (⟨some 3, some 1, "Groceries", "general", 7⟩ : Category).user_id
          = r.user_id
      ∧ (⟨some 3, some 1, "Groceries", "general", 7⟩ : Category).created_at
          = r.created_at) :=
  ⟨(c2_update_immutable_fields
      [⟨some 1, 1, some 2, none, "expense", 5, "INR", 0, none, 10, 10, "Shop"⟩]
      [⟨some 3, some 1, "Food", "general", 7⟩] 1 3 1
      ⟨some 9, some 99, some 2, none, none, none, none, none, none, some 999,
        none, some "Mart"⟩
      ⟨some 8, some 88, some "Groceries", none, some 777⟩ 20).1 _ rfl,
    (c2_update_immutable_fields
      [⟨some 1, 1, some 2, none, "expense", 5, "INR", 0, none, 10, 10, "Shop"⟩]
      [⟨some 3, some 1, "Food", "general", 7⟩] 1 3 1
      ⟨some 9, some 99, some 2, none, none, none, none, none, none, some 999,
        none, some "Mart"⟩
      ⟨some 8, some 88, some "Groceries", none, some 777⟩ 20).2 _ rfl⟩

/-- C3 (amended): when no row with the given id belongs to the caller
(nonexistent id or another user's row), Get and Delete on either resource
fail with 404 leaving the table unchanged, category Update fails with
404, and transaction Update fails with 404 PROVIDED the body passes the
required-field validation (truthy `category_id` and `merchant`) that the
handler runs first (and which yields 400 regardless of existence); no
variant returns or modifies a row. -/
theorem c3_not_found_scoping (db : List Txn) (cats : List Category)
    (tid cid uid now : ℤ)
    (hT : findTxn db tid uid = none) (hC : findCat cats cid uid = none) :
    get_transaction db tid uid = .error ⟨404, "Transaction not found"⟩
    ∧ delete_transaction db tid uid
        = (.error ⟨404, "Transaction not found"⟩, db)
    ∧ (∀ p : TxnPayload, ¬p.category_id.getD 0 = 0 →
        ¬p.merchant.getD "" = "" →
        update_transaction db tid uid p now
          = .error ⟨404, "Transaction not found"⟩)
    ∧ get_category cats cid uid = .error ⟨404, "Category not found"⟩
    ∧ delete_category cats cid uid
        = (.error ⟨404, "Category not found"⟩, cats)
    ∧ (∀ p : CategoryPayload,
        update_category cats cid uid p
          = .error ⟨404, "Category not found"⟩) := by
  refine ⟨?_, ?_, ?_, ?_, ?_, ?_⟩
  · simp only [get_transaction, hT]
  · simp only [delete_transaction, hT]
  · intro p h1 h2
    rw [update_transaction, if_neg (by simpa using h1),
      if_neg (by simpa using h2)]
    simp only [hT]
  · simp only [get_category, hC]
  · simp only [delete_category, hC]
  · intro p
    simp only [update_category, hC]

/-- Witness for C3 at empty tables with a valid update body. -/
theorem c3_not_found_scoping_witness :
    get_transaction [] 7 1 = .error ⟨404, "Transaction not found"⟩
    ∧ delete_transaction [] 7 1
        = (.error ⟨404, "Transaction not found"⟩, [])
    ∧ (∀ p : TxnPayload, ¬p.category_id.getD 0 = 0 →
        ¬p.merchant.getD "" = "" →
        update_transaction [] 7 1 p 0
          = .error ⟨404, "Transaction not found"⟩)
    ∧ get_category [] 7 1 = .error ⟨404, "Category not found"⟩
    ∧ delete_category [] 7 1 = (.error ⟨404, "Category not found"⟩, [])
    ∧ (∀ p : CategoryPayload,
        update_category [] 7 1 p = .error ⟨404, "Category not found"⟩) :=
  c3_not_found_scoping [] [] 7 7 1 0 rfl rfl

/-- Counterexample to C3 as stated: with NO matching row (empty table),
updating transaction 7 with a body lacking the required fields fails with
400 "Category ID is required.", not with 404 — the body validation runs
before the existence check. -/
theorem c3_counterexample :
    findTxn [] 7 1 = none
    ∧ update_transaction [] 7 1
        ⟨none, none, none, none, none, none, none, none, none, none, none,
          none⟩ 0
      = .error ⟨400, "Category ID is required."⟩
    ∧ (400 : ℕ) ≠ 404 :=
  ⟨rfl, rfl, by norm_num⟩

/-! ## Listing transactions (`list_transactions`) and the legacy summary
(`summary_report` in `app/api/v1/reports.py`) -/

/-- The row filter of `list_transactions`.  Python truthiness: `if
start_date:`/`if end_date:` test for presence (a `datetime` is always
truthy); `if txn_type:` also skips the filter for the empty string and
`if category_id:` also skips it for 0. -/
def txnFilter (uid : ℤ) (sd ed : Option ℤ) (ty : Option String)
    (cid : Option ℤ) (t : Txn) : Bool :=
  t.user_id == uid
  && (match sd with | none => true | some s => decide (s ≤ t.date))
  && (match ed with | none => true | some e => decide (t.date ≤ e))
  && (match ty with
      | none => true
      | some s => if s == "" then true else t.type == s)
  && (match cid with
      | none => true
      | some c => if c == 0 then true else t.category_id == some c)

/-- The response envelope of `GET /api/v1/transactions`. -/
structure ListResult where
  data : List Txn
  total_count : ℕ
  current_page : ℤ
  per_page : ℤ
  total_pages : ℕ
deriving DecidableEq

/-- `list_transactions`: pagination guardrails `page = max(1, page)`,
`per_page = max(1, min(per_page, 100))`; `total_count` counts the rows
matching the same where-clause; ordering by date desc then id desc;
offset/limit slicing; `total_pages = (total_count + per_page - 1) //
per_page`. -/
def list_transactions (db : List Txn) (uid : ℤ) (sd ed : Option ℤ)
    (ty : Option String) (cid : Option ℤ) (page per_page : ℤ) :
    ListResult :=
  let page1 := max 1 page
  let pp := max 1 (min per_page 100)
  let matching := db.filter (txnFilter uid sd ed ty cid)
  let tc := matching.length
  let ppn := pp.toNat
  { data := ((matching.mergeSort fun a b =>
        decide (b.date < a.date)
        || (a.date == b.date && decide (b.id.getD 0 ≤ a.id.getD 0))).drop
        ((page1 - 1) * pp).toNat).take ppn
    total_count := tc
    current_page := page1
    per_page := pp
    total_pages := (tc + ppn - 1) / ppn }

/-- C9: for every list-transactions query the effective page is at
least 1, the effective per-page is within `[1, 100]`, `total_count` is
exactly the number of the caller's rows matching the filters, and
`total_pages` is the ceiling of `total_count / per_page`. -/
theorem c9_list_pagination (db : List Txn) (uid : ℤ) (sd ed : Option ℤ)
    (ty : Option String) (cid : Option ℤ) (page per_page : ℤ) :
    1 ≤ (list_transactions db uid sd ed ty cid page per_page).current_page
    ∧ 1 ≤ (list_transactions db uid sd ed ty cid page per_page).per_page
    ∧ (list_transactions db uid sd ed ty cid page per_page).per_page ≤ 100
    ∧ (list_transactions db uid sd ed ty cid page per_page).total_count
        = (db.filter (txnFilter uid sd ed ty cid)).length
    ∧ (list_transactions db uid sd ed ty cid page per_page).total_pages
        = (list_transactions db uid sd ed ty cid page per_page).total_count
          ⌈/⌉ (list_transactions db uid sd ed ty cid page per_page).per_page.toNat := by
  refine ⟨le_max_left 1 page, le_max_left 1 _, ?_, rfl, ?_⟩
  · exact max_le (by norm_num) (min_le_right per_page 100)
  · rw [Nat.ceilDiv_eq_add_pred_div]
    rfl

/-- The legacy aggregate `GET /reports/summary` income total:
`SUM(CASE WHEN lower(type) = 'income' THEN amount ELSE 0 END)` over the
caller's transactions, with optional inclusive date bounds. -/
def summaryIncome (db : List Txn) (uid : ℤ) (sd ed : Option ℤ) : ℚ :=
  ((db.filter fun t => t.user_id == uid
      && (match sd with | none => true | some s => decide (s ≤ t.date))
      && (match ed with | none => true | some e => decide (t.date ≤ e))).map
    fun t => if isIncomeType t.type then t.amount else 0).sum

/-- The legacy expense total of `GET /reports/summary`, as
`summaryIncome`. -/
def summaryExpense (db : List Txn) (uid : ℤ) (sd ed : Option ℤ) : ℚ :=
  ((db.filter fun t => t.user_id == uid
      && (match sd with | none => true | some s => decide (s ≤ t.date))
      && (match ed with | none => true | some e => decide (t.date ≤ e))).map
    fun t => if isExpenseType t.type then t.amount else 0).sum

/-- C10: the list endpoint's type filter is an exact (case-sensitive)
string comparison while every reporting aggregation lowercases the stored
type, for both type words: a transaction whose stored type equals
"income" (resp. "expense") only up to letter case is invisible to
`?type=income` (resp. `?type=expense`) list queries — it never passes the
filter, so it changes no list result or count — yet contributes its
amount to the reports' income (resp. expense) total. -/
theorem c10_type_case_divergence (uid : ℤ) (sd ed : Option ℤ)
    (cid : Option ℤ) (t : Txn) (hu : t.user_id = uid) :
    (lowerStr t.type = "income" → t.type ≠ "income" →
      txnFilter uid sd ed (some "income") cid t = false
      ∧ (∀ (rest : List Txn) (page pp : ℤ),
          (list_transactions (t :: rest) uid sd ed (some "income") cid
            page pp).total_count
          = (list_transactions rest uid sd ed (some "income") cid
            page pp).total_count)
      ∧ (∀ rest : List Txn,
          summaryIncome (t :: rest) uid none none
            = t.amount + summaryIncome rest uid none none))
    ∧ (lowerStr t.type = "expense" → t.type ≠ "expense" →
      txnFilter uid sd ed (some "expense") cid t = false
      ∧ (∀ (rest : List Txn) (page pp : ℤ),
          (list_transactions (t :: rest) uid sd ed (some "expense") cid
            page pp).total_count
          = (list_transactions rest uid sd ed (some "expense") cid
            page pp).total_count)
      ∧ (∀ rest : List Txn,
          summaryExpense (t :: rest) uid none none
            = t.amount + summaryExpense rest uid none none)) := by
  constructor
  · intro hlow hne
    have hfil : txnFilter uid sd ed (some "income") cid t = false := by
      simp only [txnFilter]
      have hbe : (t.type == "income") = false := by
        simp [hne]
      simp [hbe]
    refine ⟨hfil, ?_, ?_⟩
    · intro rest page pp
      simp only [list_transactions, List.filter_cons, hfil]
      simp
    · intro rest
      simp only [summaryIncome, List.filter_cons]
      have htrue : (t.user_id == uid && true && true) = true := by
        simp [hu]
      rw [htrue]
      simp only [if_true, List.map_cons, List.sum_cons]
      have hik : isIncomeType t.type = true := by
        simp [isIncomeType, hlow]
      rw [hik]
      simp
  · intro hlow hne
    have hfil : txnFilter uid sd ed (some "expense") cid t = false := by
      simp only [txnFilter]
      have hbe : (t.type == "expense") = false := by
        simp [hne]
      simp [hbe]
    refine ⟨hfil, ?_, ?_⟩
    · intro rest page pp
      simp only [list_transactions, List.filter_cons, hfil]
      simp
    · intro rest
      simp only [summaryExpense, List.filter_cons]
      have htrue : (t.user_id == uid && true && true) = true := by
        simp [hu]
      rw [htrue]
      simp only [if_true, List.map_cons, List.sum_cons]
      have hek : isExpenseType t.type = true := by
        simp [isExpenseType, hlow]
      rw [hek]
      simp

/-- Witness for C10: both halves, with stored types "Income" and
"Expense". -/
theorem c10_type_case_divergence_witness :
    (txnFilter 1 none none (some "income") none
        ⟨some 4, 1, some 2, none, "Income", 5, "INR", 0, none, 0, 0, "Shop"⟩
      = false
    ∧ (∀ (rest : List Txn) (page pp : ℤ),
        (list_transactions
          (⟨some 4, 1, some 2, none, "Income", 5, "INR", 0, none, 0, 0,
            "Shop"⟩ :: rest) 1 none none (some "income") none
          page pp).total_count
        = (list_transactions rest 1 none none (some "income") none
          page pp).total_count)
    ∧ (∀ rest : List Txn,
        summaryIncome
          (⟨some 4, 1, some 2, none, "Income", 5, "INR", 0, none, 0, 0,
            "Shop"⟩ :: rest) 1 none none
          = (5 : ℚ) + summaryIncome rest 1 none none))
    ∧ (txnFilter 1 none none (some "expense") none
        ⟨some 5, 1, some 2, none, "Expense", 7, "INR", 0, none, 0, 0, "Shop"⟩
      = false
    ∧ (∀ (rest : List Txn) (page pp : ℤ),
        (list_transactions
          (⟨some 5, 1, some 2, none, "Expense", 7, "INR", 0, none, 0, 0,
            "Shop"⟩ :: rest) 1 none none (some "expense") none
          page pp).total_count
        = (list_transactions rest 1 none none (some "expense") none
          page pp).total_count)
    ∧ (∀ rest : List Txn,
        summaryExpense
          (⟨some 5, 1, some 2, none, "Expense", 7, "INR", 0, none, 0, 0,
            "Shop"⟩ :: rest) 1 none none
          = (7 : ℚ) + summaryExpense rest 1 none none)) :=
  ⟨(c10_type_case_divergence 1 none none none
      ⟨some 4, 1, some 2, none, "Income", 5, "INR", 0, none, 0, 0, "Shop"⟩
      rfl).1 (by decide) (by decide),
    (c10_type_case_divergence 1 none none none
      ⟨some 5, 1, some 2, none, "Expense", 7, "INR", 0, none, 0, 0, "Shop"⟩
      rfl).2 (by decide) (by decide)⟩

end Finity
